import Mathlib

/-!
Verification of the par-level engine of the `par-delta-dashboard` repository.

The definitions below are a shallow embedding of the pure computational core
of `src/dashboard/par_engine.py` (the canonical par engine):

* calendar dates (`Date`, proleptic Gregorian, with Python's
  `date.toordinal` numbering and `pandas.DateOffset(years=1)` subtraction);
* the cadence scheduler (`_next_weekday`, `_compute_delivery_date`,
  `_next_delivery_after`, `get_order_context`), expressed on day ordinals
  where Python's `date.weekday()` (Monday = 0) is `(ordinal + 6) % 7`;
* the record normalizer embedded from `_load_ndcp_data` (the pure part that
  follows the paginated fetch: column renaming is schema-level, numeric
  coercion is reflected in the field types, date parsing, `effective_date`
  / `qty_effective` derivation and the row drop are modelled explicitly);
* the usage-metrics calculator `_compute_metrics_for_period`;
* the orchestrator `get_par_for_next_order` (minus the network fetch: the
  normalized rows are a parameter, and the display-only
  `calculated_at` / window-boundary string columns are not modelled).

Floating point numbers are modelled as rationals, pandas `NaN`/nullable
cells as `Option` values.
-/

/-! ## Calendar dates -/

/-- A proleptic Gregorian calendar date, as in Python's `datetime.date`. -/
structure Date where
  year : Nat
  month : Nat
  day : Nat
deriving DecidableEq

/-- Gregorian leap-year rule. -/
def isLeapYear (y : Nat) : Bool :=
  (y % 4 = 0 && y % 100 ≠ 0) || y % 400 = 0

/-- Number of days in month `m` of year `y`. -/
def daysInMonth (y m : Nat) : Nat :=
  if m = 2 then (if isLeapYear y then 29 else 28)
  else if m = 4 ∨ m = 6 ∨ m = 9 ∨ m = 11 then 30
  else 31

/-- Validity of a calendar date (what `datetime.date` accepts). -/
def Date.valid (d : Date) : Prop :=
  1 ≤ d.year ∧ 1 ≤ d.month ∧ d.month ≤ 12 ∧ 1 ≤ d.day ∧ d.day ≤ daysInMonth d.year d.month

instance (d : Date) : Decidable d.valid := by
  unfold Date.valid; infer_instance

/-- Days in all years strictly before year `y` (proleptic Gregorian). -/
def daysBeforeYear (y : Nat) : Nat :=
  365 * (y - 1) + (y - 1) / 4 - (y - 1) / 100 + (y - 1) / 400

/-- Days in all months of year `y` strictly before month `m`. -/
def daysBeforeMonth (y m : Nat) : Nat :=
  ((List.range (m - 1)).map (fun k => daysInMonth y (k + 1))).sum

/-- Python's `date.toordinal`: day number with 0001-01-01 ↦ 1. -/
def Date.toOrdinal (d : Date) : Int :=
  ((daysBeforeYear d.year + daysBeforeMonth d.year d.month + d.day : Nat) : Int)

/-- `pandas.Timestamp - DateOffset(years=1)`: subtract one calendar year,
clamping the day into the (possibly shorter) target month. -/
def Date.subYears1 (d : Date) : Date :=
  ⟨d.year - 1, d.month, min d.day (daysInMonth (d.year - 1) d.month)⟩

/-! ## Cadence scheduler (`par_engine.py` lines 114-178)

Dates are handled through their ordinals; `timedelta(days=n)` is `+ n`. -/

/-- Python's `date.weekday()` on an ordinal: Monday = 0 (ordinal 1, the date
0001-01-01, is a Monday). -/
def pyWeekday (d : Int) : Int := (d + 6) % 7

/-- `_next_weekday`: `from_date + (target_weekday - from_date.weekday()) % 7`. -/
def nextWeekdayFrom (fromDate : Int) (targetWeekday : Int) : Int :=
  fromDate + (targetWeekday - pyWeekday fromDate) % 7

/-- `ORDER_WEEKDAYS["TUE"]`. -/
def orderWeekdayTue : Int := 1

/-- `ORDER_WEEKDAYS["SAT"]`. -/
def orderWeekdaySat : Int := 5

/-- `_compute_delivery_date`: both branches add exactly 2 days. -/
def computeDeliveryDate (orderDt : Int) (orderWeekday : Int) : Int :=
  if orderWeekday = orderWeekdayTue then orderDt + 2
  else orderDt + 2

/-- `_next_delivery_after`: Monday delivery → +3 (Thursday), Thursday
delivery → +4 (Monday), otherwise a robust fallback snapping to the nearer
of the next Thursday / next Monday strictly after. -/
def nextDeliveryAfter (deliveryDt : Int) : Int :=
  let wd := pyWeekday deliveryDt
  if wd = 0 then deliveryDt + 3
  else if wd = 3 then deliveryDt + 4
  else
    let nextThu0 := nextWeekdayFrom deliveryDt 3
    let nextThu := if nextThu0 = deliveryDt then deliveryDt + 7 else nextThu0
    let nextMon0 := nextWeekdayFrom deliveryDt 0
    let nextMon := if nextMon0 = deliveryDt then deliveryDt + 7 else nextMon0
    min nextThu nextMon

/-- The record returned by `get_order_context` (its date fields as ordinals;
the constant `cadence_type = "TWICE_WEEKLY"` string is omitted). -/
structure OrderContext where
  today : Int
  next_order_date : Int
  next_delivery_date_for_order : Int
  next_delivery_after_that : Int
  cycle_days : Int
  order_weekday : Int
  delivery_weekday : Int
deriving DecidableEq

/-- `next_order_date = min(next_tue, next_sat)` in `get_order_context`. -/
def nextOrderDate (today : Int) : Int :=
  min (nextWeekdayFrom today orderWeekdayTue) (nextWeekdayFrom today orderWeekdaySat)

/-- `get_order_context` (`par_engine.py` lines 156-178). -/
def get_order_context (today : Int) : OrderContext :=
  let next_order_date := nextOrderDate today
  let order_weekday := pyWeekday next_order_date
  let delivery_date := computeDeliveryDate next_order_date order_weekday
  let next_delivery_date := nextDeliveryAfter delivery_date
  let cycle_days := max (next_delivery_date - delivery_date) 1
  { today := today
    next_order_date := next_order_date
    next_delivery_date_for_order := delivery_date
    next_delivery_after_that := next_delivery_date
    cycle_days := cycle_days
    order_weekday := order_weekday
    delivery_weekday := pyWeekday delivery_date }

/-- Both branches of `_compute_delivery_date` add exactly two days. -/
lemma computeDeliveryDate_eq (o w : Int) : computeDeliveryDate o w = o + 2 := by
  unfold computeDeliveryDate; split_ifs <;> rfl

lemma ctx_next_order_date (d : Int) :
    (get_order_context d).next_order_date = nextOrderDate d := rfl

lemma ctx_delivery_date (d : Int) :
    (get_order_context d).next_delivery_date_for_order =
      computeDeliveryDate (nextOrderDate d) (pyWeekday (nextOrderDate d)) := rfl

lemma ctx_after_that (d : Int) :
    (get_order_context d).next_delivery_after_that =
      nextDeliveryAfter (computeDeliveryDate (nextOrderDate d) (pyWeekday (nextOrderDate d))) := rfl

lemma ctx_cycle_days (d : Int) :
    (get_order_context d).cycle_days =
      max (nextDeliveryAfter (computeDeliveryDate (nextOrderDate d) (pyWeekday (nextOrderDate d))) -
        computeDeliveryDate (nextOrderDate d) (pyWeekday (nextOrderDate d))) 1 := rfl

/-- The order date search: it never moves backwards, always lands on a
Tuesday or Saturday, and stays put exactly when today already is one. -/
lemma nextOrderDate_spec (d : Int) :
    d ≤ nextOrderDate d ∧
    (pyWeekday (nextOrderDate d) = 1 ∨ pyWeekday (nextOrderDate d) = 5) ∧
    (nextOrderDate d = d ↔ (pyWeekday d = 1 ∨ pyWeekday d = 5)) := by
  unfold nextOrderDate nextWeekdayFrom pyWeekday orderWeekdayTue orderWeekdaySat
  rw [min_def]
  split_ifs <;> omega

lemma nextDeliveryAfter_monday (x : Int) (h : pyWeekday x = 0) :
    nextDeliveryAfter x = x + 3 := by
  simp [nextDeliveryAfter, h]

lemma nextDeliveryAfter_thursday (x : Int) (h : pyWeekday x = 3) :
    nextDeliveryAfter x = x + 4 := by
  simp [nextDeliveryAfter, h]

/-! ## Windows of `get_par_for_next_order` (`par_engine.py` lines 229-238) -/

/-- The current window `[today - window_days, today)`, as ordinals
(`current_start = today_dt - timedelta(days=window_days)`). -/
def currentWindow (today : Date) (window_days : Nat) : Int × Int :=
  (Date.toOrdinal today - window_days, Date.toOrdinal today)

/-- `ly_end = pd.Timestamp(today_dt) - pd.DateOffset(years=1)`. -/
def lyEndOf (today : Date) : Date := Date.subYears1 today

/-- The same window last year, `[ly_end - window_days, ly_end)`, as ordinals
(`ly_start = ly_end - timedelta(days=window_days)`). -/
def lyWindow (today : Date) (window_days : Nat) : Int × Int :=
  (Date.toOrdinal (lyEndOf today) - window_days, Date.toOrdinal (lyEndOf today))

/-- C2: for every calendar date `d`, `get_order_context d` has
`cycle_days ∈ {3, 4}` and
`next_delivery_after_that > next_delivery_date_for_order > next_order_date ≥ d`,
with `next_order_date = d` exactly when `d` falls on Tuesday or Saturday
(the offset `(target - d.weekday()) % 7` is 0 on a match). -/
theorem order_context_bounds (d : Int) :
    ((get_order_context d).cycle_days = 3 ∨ (get_order_context d).cycle_days = 4) ∧
    (get_order_context d).next_delivery_date_for_order <
      (get_order_context d).next_delivery_after_that ∧
    (get_order_context d).next_order_date < (get_order_context d).next_delivery_date_for_order ∧
    d ≤ (get_order_context d).next_order_date ∧
    ((get_order_context d).next_order_date = d ↔ (pyWeekday d = 1 ∨ pyWeekday d = 5)) := by
  obtain ⟨hle, hwd, hiff⟩ := nextOrderDate_spec d
  rw [ctx_next_order_date, ctx_delivery_date, ctx_after_that, ctx_cycle_days,
    computeDeliveryDate_eq]
  rcases hwd with h1 | h5
  · have hdd : pyWeekday (nextOrderDate d + 2) = 3 := by unfold pyWeekday at *; omega
    rw [nextDeliveryAfter_thursday _ hdd]
    exact ⟨Or.inr (by omega), by omega, by omega, hle, hiff⟩
  · have hdd : pyWeekday (nextOrderDate d + 2) = 0 := by unfold pyWeekday at *; omega
    rw [nextDeliveryAfter_monday _ hdd]
    exact ⟨Or.inl (by omega), by omega, by omega, hle, hiff⟩

/-- C3: on a Monday, the next order is that week's Tuesday (`d + 1`),
delivered Thursday (`d + 3`), the delivery after that is the following
Monday (`d + 7`), and `cycle_days = 4`; on a Thursday, the next order is
the upcoming Saturday (`d + 2`), delivered the following Monday (`d + 4`),
the delivery after that is the Thursday after that (`d + 7`), and
`cycle_days = 3`. -/
theorem order_context_monday_thursday (d : Int) :
    (pyWeekday d = 0 →
      (get_order_context d).next_order_date = d + 1 ∧ pyWeekday (d + 1) = 1 ∧
      (get_order_context d).next_delivery_date_for_order = d + 3 ∧ pyWeekday (d + 3) = 3 ∧
      (get_order_context d).next_delivery_after_that = d + 7 ∧ pyWeekday (d + 7) = 0 ∧
      (get_order_context d).cycle_days = 4) ∧
    (pyWeekday d = 3 →
      (get_order_context d).next_order_date = d + 2 ∧ pyWeekday (d + 2) = 5 ∧
      (get_order_context d).next_delivery_date_for_order = d + 4 ∧ pyWeekday (d + 4) = 0 ∧
      (get_order_context d).next_delivery_after_that = d + 7 ∧ pyWeekday (d + 7) = 3 ∧
      (get_order_context d).cycle_days = 3) := by
  constructor
  · intro h
    have hno : nextOrderDate d = d + 1 := by
      unfold pyWeekday at h
      unfold nextOrderDate nextWeekdayFrom pyWeekday orderWeekdayTue orderWeekdaySat
      rw [min_def]; split_ifs <;> omega
    rw [ctx_next_order_date, ctx_delivery_date, ctx_after_that, ctx_cycle_days,
      computeDeliveryDate_eq, hno]
    have hdd : pyWeekday (d + 1 + 2) = 3 := by unfold pyWeekday at *; omega
    rw [nextDeliveryAfter_thursday _ hdd]
    refine ⟨rfl, ?_, by omega, ?_, by omega, ?_, by omega⟩ <;> (unfold pyWeekday at *; omega)
  · intro h
    have hno : nextOrderDate d = d + 2 := by
      unfold pyWeekday at h
      unfold nextOrderDate nextWeekdayFrom pyWeekday orderWeekdayTue orderWeekdaySat
      rw [min_def]; split_ifs <;> omega
    rw [ctx_next_order_date, ctx_delivery_date, ctx_after_that, ctx_cycle_days,
      computeDeliveryDate_eq, hno]
    have hdd : pyWeekday (d + 2 + 2) = 0 := by unfold pyWeekday at *; omega
    rw [nextDeliveryAfter_monday _ hdd]
    refine ⟨rfl, ?_, by omega, ?_, by omega, ?_, by omega⟩ <;> (unfold pyWeekday at *; omega)

/-- Witness for C3: 2024-03-04 was a Monday (cycle 4) and 2024-03-07 a
Thursday (cycle 3). -/
theorem order_context_monday_thursday_witness :
    (get_order_context (Date.toOrdinal ⟨2024, 3, 4⟩)).cycle_days = 4 ∧
    (get_order_context (Date.toOrdinal ⟨2024, 3, 7⟩)).cycle_days = 3 :=
  ⟨((order_context_monday_thursday (Date.toOrdinal ⟨2024, 3, 4⟩)).1
      (by decide)).2.2.2.2.2.2,
   ((order_context_monday_thursday (Date.toOrdinal ⟨2024, 3, 7⟩)).2
      (by decide)).2.2.2.2.2.2⟩

/-- C5: the year-ago window uses calendar-year subtraction: whenever the
day number also exists in the same month one year earlier, `ly_end` keeps
the month and day and decrements the year; in particular for
`today = 2024-03-01` and `window_days = 30`, `ly_end = 2023-03-01` and
`ly_start = 2023-01-30`, whereas a fixed 365-day subtraction would land on
2023-03-02 (2024 is a leap year). -/
theorem ly_window_calendar_year (y m d : Nat) (hv : (Date.mk y m d).valid)
    (hy : 2 ≤ y) (hd : d ≤ daysInMonth (y - 1) m) :
    lyEndOf ⟨y, m, d⟩ = ⟨y - 1, m, d⟩ ∧
    lyEndOf ⟨2024, 3, 1⟩ = ⟨2023, 3, 1⟩ ∧
    lyWindow ⟨2024, 3, 1⟩ 30 = (Date.toOrdinal ⟨2023, 1, 30⟩, Date.toOrdinal ⟨2023, 3, 1⟩) ∧
    Date.toOrdinal ⟨2024, 3, 1⟩ - 365 = Date.toOrdinal ⟨2023, 3, 2⟩ ∧
    Date.toOrdinal ⟨2023, 3, 2⟩ ≠ Date.toOrdinal ⟨2023, 3, 1⟩ := by
  refine ⟨?_, by decide, by decide, by decide, by decide⟩
  simp [lyEndOf, Date.subYears1, min_eq_left hd]

/-- Witness for C5 at `today = 2024-03-01`. -/
theorem ly_window_calendar_year_witness :
    lyEndOf ⟨2024, 3, 1⟩ = ⟨2023, 3, 1⟩ :=
  (ly_window_calendar_year 2024 3 1 (by decide) (by decide) (by decide)).1

/-! ## Record normalizer (`_load_ndcp_data`, `par_engine.py` lines 74-108)

A raw record models one row of the fetched `ndcp_invoices` frame after the
column rename and the `pd.to_numeric(..., errors="coerce")` pass (numeric
fields carry `Option ℚ`, a failed or missing cell is `none`).  Date columns
still hold their raw string form; `_parse_yyyymmdd` is modelled explicitly.
-/

structure RawRec where
  pc_number : Option String
  item_number : Option ℚ
  item_name : Option String
  qty_ordered : Option ℚ
  qty_shipped : Option ℚ
  order_date_raw : Option String
  invoice_date_raw : Option String
  category : Option String
deriving DecidableEq

/-- A normalized transaction row: the columns of the frame returned by
`_load_ndcp_data`.  Key fields and `effective_date` are non-optional
because rows with nulls there were dropped. -/
structure Txn where
  pc_number : String
  item_number : ℚ
  item_name : String
  category : Option String
  qty_ordered : Option ℚ
  qty_shipped : Option ℚ
  order_date_raw : Option String
  invoice_date_raw : Option String
  order_date : Option Int
  invoice_date : Option Int
  effective_date : Int
  qty_effective : ℚ
deriving DecidableEq

/-- `s.str.replace(r"\.0$", "", regex=True)`, on the character list of the
cell (string functions are modelled on `String.data` so that they evaluate
inside the kernel). -/
def stripDotZero (cs : List Char) : List Char :=
  if cs.reverse.take 2 = ['0', '.'] then cs.take (cs.length - 2) else cs

/-- `s.str.zfill(8)`. -/
def zfill8 (cs : List Char) : List Char :=
  if cs.length < 8 then List.replicate (8 - cs.length) '0' ++ cs else cs

/-- Decimal digit test (`0`-`9`). -/
def isDigitC (c : Char) : Bool := decide (48 ≤ c.toNat ∧ c.toNat ≤ 57)

/-- Value of a decimal digit character. -/
def digitVal (c : Char) : Nat := c.toNat - 48

/-- `pd.to_datetime(s, format="%Y%m%d", errors="coerce")` on one cell:
exactly eight digits naming a valid calendar date, else null. -/
def parseYYYYMMDD (s : String) : Option Date :=
  let t := zfill8 (stripDotZero s.data)
  if t.length = 8 ∧ t.all isDigitC = true then
    let n := t.foldl (fun acc c => 10 * acc + digitVal c) 0
    let dte : Date := ⟨n / 10000, n / 100 % 100, n % 100⟩
    if dte.valid then some dte else none
  else none

/-- `_parse_yyyymmdd` on one cell (null in, null out), with the parsed
date carried as its ordinal. -/
def parseCompactDate (s : Option String) : Option Int :=
  s.bind (fun v => (parseYYYYMMDD v).map Date.toOrdinal)

/-- The per-row core of `_load_ndcp_data` after the rename/coercion pass:
parse both dates, derive `effective_date` and `qty_effective`, and drop the
row when `pc_number`, `item_number`, `item_name` or `effective_date` is
null. -/
def normalizeRec (r : RawRec) : Option Txn :=
  let order_date := parseCompactDate r.order_date_raw
  let invoice_date := parseCompactDate r.invoice_date_raw
  let effective_date := match invoice_date with
    | some d => some d
    | none => order_date
  match r.pc_number, r.item_number, r.item_name, effective_date with
  | some pc, some item, some name, some d =>
      some { pc_number := pc
             item_number := item
             item_name := name
             category := r.category
             qty_ordered := r.qty_ordered
             qty_shipped := r.qty_shipped
             order_date_raw := r.order_date_raw
             invoice_date_raw := r.invoice_date_raw
             order_date := order_date
             invoice_date := invoice_date
             effective_date := d
             qty_effective := match r.qty_shipped with
               | some q => q
               | none => match r.qty_ordered with
                 | some q => q
                 | none => 0 }
  | _, _, _, _ => none

/-- The row-wise normalization of the whole frame. -/
def normalizeRows (rows : List RawRec) : List Txn := rows.filterMap normalizeRec

/-- Casting a normalized row back to a raw record with the canonical field
names already present (what re-feeding the normalized frame means). -/
def Txn.toRaw (t : Txn) : RawRec :=
  { pc_number := some t.pc_number
    item_number := some t.item_number
    item_name := some t.item_name
    qty_ordered := t.qty_ordered
    qty_shipped := t.qty_shipped
    order_date_raw := t.order_date_raw
    invoice_date_raw := t.invoice_date_raw
    category := t.category }

/-- Field-by-field description of a row that survives normalization. -/
lemma normalizeRec_some_fields (r : RawRec) (t : Txn) (h : normalizeRec r = some t) :
    r.pc_number = some t.pc_number ∧ r.item_number = some t.item_number ∧
    r.item_name = some t.item_name ∧ t.category = r.category ∧
    t.qty_ordered = r.qty_ordered ∧ t.qty_shipped = r.qty_shipped ∧
    t.order_date_raw = r.order_date_raw ∧ t.invoice_date_raw = r.invoice_date_raw ∧
    t.order_date = parseCompactDate r.order_date_raw ∧
    t.invoice_date = parseCompactDate r.invoice_date_raw ∧
    (match parseCompactDate r.invoice_date_raw with
      | some d => some d
      | none => parseCompactDate r.order_date_raw) = some t.effective_date ∧
    t.qty_effective = (match r.qty_shipped with
      | some q => q
      | none => match r.qty_ordered with | some q => q | none => 0) := by
  rcases hpc : r.pc_number with _ | pc <;>
  rcases hit : r.item_number with _ | it <;>
  rcases hnm : r.item_name with _ | nm <;>
  rcases hinv : parseCompactDate r.invoice_date_raw with _ | dv <;>
  rcases hord : parseCompactDate r.order_date_raw with _ | ov <;>
    simp_all [normalizeRec] <;>
    rcases hqs : r.qty_shipped with _ | qs <;>
    rcases hqo : r.qty_ordered with _ | qo <;>
      (try subst h) <;> simp_all

/-- A row is dropped exactly when a key column or the derived
`effective_date` is null. -/
lemma normalizeRec_none_iff (r : RawRec) :
    normalizeRec r = none ↔
      (r.pc_number = none ∨ r.item_number = none ∨ r.item_name = none ∨
        (parseCompactDate r.invoice_date_raw = none ∧
          parseCompactDate r.order_date_raw = none)) := by
  rcases hpc : r.pc_number with _ | pc <;>
  rcases hit : r.item_number with _ | it <;>
  rcases hnm : r.item_name with _ | nm <;>
  rcases hinv : parseCompactDate r.invoice_date_raw with _ | dv <;>
  rcases hord : parseCompactDate r.order_date_raw with _ | ov <;>
    simp_all [normalizeRec]

/-- C7: normalization derives `effective_date` from the invoice date,
falling back to the order date; derives `qty_effective` as shipped, else
ordered, else 0; and drops exactly the rows where `pc_number`,
`item_number`, `item_name` or `effective_date` is null. -/
theorem normalizer_contract (r : RawRec) :
    (∀ t, normalizeRec r = some t →
      ((∀ d, parseCompactDate r.invoice_date_raw = some d → t.effective_date = d) ∧
       (parseCompactDate r.invoice_date_raw = none →
         parseCompactDate r.order_date_raw = some t.effective_date) ∧
       (∀ q, r.qty_shipped = some q → t.qty_effective = q) ∧
       (r.qty_shipped = none → ∀ q, r.qty_ordered = some q → t.qty_effective = q) ∧
       (r.qty_shipped = none → r.qty_ordered = none → t.qty_effective = 0))) ∧
    (normalizeRec r = none ↔
      (r.pc_number = none ∨ r.item_number = none ∨ r.item_name = none ∨
        (parseCompactDate r.invoice_date_raw = none ∧
          parseCompactDate r.order_date_raw = none))) := by
  refine ⟨?_, normalizeRec_none_iff r⟩
  intro t ht
  obtain ⟨-, -, -, -, -, -, -, -, -, -, heff, hqe⟩ := normalizeRec_some_fields r t ht
  constructor
  · intro d hd; rw [hd] at heff; simpa using heff.symm
  · constructor
    · intro hnone; rw [hnone] at heff; simpa using heff
    · refine ⟨?_, ?_, ?_⟩
      · intro q hq; rw [hq] at hqe; simpa using hqe
      · intro hs q hq; rw [hs, hq] at hqe; simpa using hqe
      · intro hs ho; rw [hs, ho] at hqe; simpa using hqe

/-- A raw row with canonical values, used as concrete test input. -/
def rawRowA : RawRec :=
  { pc_number := some "357993", item_number := some 23,
    item_name := some "Iced Coffee Cups", qty_ordered := some 5, qty_shipped := none,
    order_date_raw := some "20240215", invoice_date_raw := none,
    category := some "Paper" }

/-- The normalized image of `rawRowA`. -/
def txnA : Txn :=
  { pc_number := "357993", item_number := 23,
    item_name := "Iced Coffee Cups", category := some "Paper",
    qty_ordered := some 5, qty_shipped := none,
    order_date_raw := some "20240215", invoice_date_raw := none,
    order_date := some (Date.toOrdinal ⟨2024, 2, 15⟩), invoice_date := none,
    effective_date := Date.toOrdinal ⟨2024, 2, 15⟩, qty_effective := 5 }

/-- Witness for C7: on `rawRowA` (null invoice date and null `qty_shipped`),
the surviving row takes its `effective_date` from the order date and its
`qty_effective` from `qty_ordered`. -/
theorem normalizer_contract_witness :
    normalizeRec rawRowA = some txnA ∧
    parseCompactDate rawRowA.order_date_raw = some txnA.effective_date ∧
    txnA.qty_effective = 5 :=
  ⟨by decide,
   ((normalizer_contract rawRowA).1 txnA (by decide)).2.1 (by decide),
   ((normalizer_contract rawRowA).1 txnA (by decide)).2.2.2.1 rfl 5 rfl⟩

/-- A raw row whose shipped quantity is negative; every key field is
present, so the row survives normalization. -/
def rawRowNeg : RawRec :=
  { pc_number := some "357993", item_number := some 23,
    item_name := some "Iced Coffee Cups", qty_ordered := none, qty_shipped := some (-5),
    order_date_raw := some "20240215", invoice_date_raw := none,
    category := none }

/-- The normalized image of `rawRowNeg`: its `qty_effective` is `-5`. -/
def txnNeg : Txn :=
  { pc_number := "357993", item_number := 23,
    item_name := "Iced Coffee Cups", category := none,
    qty_ordered := none, qty_shipped := some (-5),
    order_date_raw := some "20240215", invoice_date_raw := none,
    order_date := some (Date.toOrdinal ⟨2024, 2, 15⟩), invoice_date := none,
    effective_date := Date.toOrdinal ⟨2024, 2, 15⟩, qty_effective := -5 }

/-- Counterexample for C9: the normalizer never clamps quantities, so a
negative `qty_shipped` survives into a negative `qty_effective`; the claimed
invariant `effective_quantity >= 0` is false. -/
theorem qty_effective_nonneg_refuted :
    ¬ (∀ rows : List RawRec, ∀ t ∈ normalizeRows rows, 0 ≤ t.qty_effective) := by
  intro h
  have hmem : txnNeg ∈ normalizeRows [rawRowNeg] := by decide
  have := h [rawRowNeg] txnNeg hmem
  exact absurd this (by decide)

/-- C9 (amended): the key fields and `effective_date` of a surviving row
are non-null (they are plain, non-optional values by construction), and
`qty_effective ≥ 0` holds provided every non-null `qty_shipped` and
`qty_ordered` in the input is non-negative; the code does not clamp
negative quantities. -/
theorem qty_effective_nonneg_of_nonneg_inputs (rows : List RawRec)
    (h : ∀ r ∈ rows, (∀ q, r.qty_shipped = some q → 0 ≤ q) ∧
      (∀ q, r.qty_ordered = some q → 0 ≤ q)) :
    ∀ t ∈ normalizeRows rows, 0 ≤ t.qty_effective := by
  intro t ht
  rw [normalizeRows, List.mem_filterMap] at ht
  obtain ⟨r, hr, hnr⟩ := ht
  obtain ⟨hs, ho⟩ := h r hr
  obtain ⟨-, -, -, -, -, -, -, -, -, -, -, hqe⟩ := normalizeRec_some_fields r t hnr
  rcases hqs : r.qty_shipped with _ | qs
  · rcases hqo : r.qty_ordered with _ | qo
    · rw [hqs, hqo] at hqe; simp only at hqe; rw [hqe]
    · rw [hqs, hqo] at hqe; simp only at hqe; rw [hqe]; exact ho qo hqo
  · rw [hqs] at hqe; simp only at hqe; rw [hqe]; exact hs qs hqs

/-- Witness for C9 (amended) on `rawRowA`, whose quantities are
non-negative. -/
theorem qty_effective_nonneg_witness : 0 ≤ txnA.qty_effective := by
  refine qty_effective_nonneg_of_nonneg_inputs [rawRowA] ?_ txnA (by decide)
  intro r hr
  simp only [List.mem_singleton] at hr
  subst hr
  refine ⟨?_, ?_⟩
  · intro q hq
    exact absurd hq (by simp [rawRowA])
  · intro q hq
    have hq5 : q = 5 := by simpa [rawRowA] using hq.symm
    rw [hq5]
    norm_num

/-- A row that survived normalization is reproduced unchanged when the
normalization transform is applied to its raw-record form again. -/
lemma normalizeRec_toRaw (r : RawRec) (t : Txn) (h : normalizeRec r = some t) :
    normalizeRec (Txn.toRaw t) = some t := by
  obtain ⟨hpc, hit, hnm, hcat, hqo, hqs, hodr, hidr, hod, hid, heff, hqe⟩ :=
    normalizeRec_some_fields r t h
  rcases hinv : parseCompactDate r.invoice_date_raw with _ | dv <;>
  rcases hord : parseCompactDate r.order_date_raw with _ | ov <;>
    (rw [hinv] at heff hid) <;> (rw [hord] at hod) <;> simp only at heff <;>
    simp_all [normalizeRec, Txn.toRaw]

/-- C10: normalization is idempotent: re-running the normalization
transform on the already-normalized record set (its rows cast back to raw
records with canonical field names) reproduces the identical record set. -/
theorem renormalize_noop (rows : List RawRec) :
    normalizeRows ((normalizeRows rows).map Txn.toRaw) = normalizeRows rows := by
  induction rows with
  | nil => rfl
  | cons r rest ih =>
      simp only [normalizeRows, List.filterMap_cons] at *
      cases hr : normalizeRec r with
      | none => simpa [hr] using ih
      | some t =>
          simp only [hr, List.map_cons, List.filterMap_cons, normalizeRec_toRaw r t hr]
          rw [ih]

/-! ## Usage metrics (`_compute_metrics_for_period`, lines 184-208)

`groupby(["pc_number", "item_number"], sort=True)` sorts the distinct keys;
group order does not matter for any property below, but the sort is kept for
fidelity. -/

/-- Insert into a sorted list (used to model the sorted group keys). -/
def insSorted {α : Type} (le : α → α → Bool) (x : α) : List α → List α
  | [] => [x]
  | y :: ys => if le x y then x :: y :: ys else y :: insSorted le x ys

/-- Insertion sort. -/
def sortByLe {α : Type} (le : α → α → Bool) (l : List α) : List α :=
  l.foldr (insSorted le) []

lemma mem_insSorted {α : Type} (le : α → α → Bool) (x a : α) (l : List α) :
    a ∈ insSorted le x l ↔ a = x ∨ a ∈ l := by
  induction l with
  | nil => simp [insSorted]
  | cons y ys ih =>
      simp only [insSorted]
      split_ifs <;> simp_all <;> tauto

lemma mem_sortByLe {α : Type} (le : α → α → Bool) (a : α) (l : List α) :
    a ∈ sortByLe le l ↔ a ∈ l := by
  induction l with
  | nil => simp [sortByLe]
  | cons y ys ih =>
      simp only [sortByLe, List.foldr_cons] at *
      rw [mem_insSorted, ih]
      simp only [List.mem_cons]

/-- Lexicographic order on the `(pc_number, item_number)` group keys. -/
def keyLe (a b : String × ℚ) : Bool :=
  if a.1 < b.1 then true else if a.1 = b.1 then decide (a.2 ≤ b.2) else false

/-- The group key of a transaction. -/
def txnKey (t : Txn) : String × ℚ := (t.pc_number, t.item_number)

/-- The distinct group keys of a frame, in sorted order. -/
def metricKeys (l : List Txn) : List (String × ℚ) :=
  sortByLe keyLe ((l.map txnKey).dedup)

lemma mem_metricKeys (l : List Txn) (k : String × ℚ) :
    k ∈ metricKeys l ↔ ∃ t ∈ l, txnKey t = k := by
  rw [metricKeys, mem_sortByLe, List.mem_dedup, List.mem_map]

/-- One row of the frame produced by `_compute_metrics_for_period`. -/
structure Metric where
  pc_number : String
  item_number : ℚ
  item_name : String
  category : Option String
  total_qty : ℚ
  avg_qty : ℚ
  num_orders : Nat
  first_date : Int
  last_date : Int
  window_days : Nat
  daily_usage_rate : ℚ
deriving DecidableEq

/-- Minimum effective date of a group (`first_date=("effective_date","min")`). -/
def minEffDate (g : List Txn) : Int :=
  match g.map Txn.effective_date with
  | [] => 0
  | d :: ds => ds.foldl min d

/-- Maximum effective date of a group (`last_date=("effective_date","max")`). -/
def maxEffDate (g : List Txn) : Int :=
  match g.map Txn.effective_date with
  | [] => 0
  | d :: ds => ds.foldl max d

/-- The `agg` of one `(pc_number, item_number)` group: last `item_name` /
`category` (pandas `last` skips nulls; `item_name` is never null), sum /
mean / count of `qty_effective`, min / max `effective_date`, the supplied
`window_days`, and `daily_usage_rate = total_qty / window_days`. -/
def aggGroup (g : List Txn) (k : String × ℚ) (window_days : Nat) : Metric :=
  { pc_number := k.1
    item_number := k.2
    item_name := ((g.map Txn.item_name).getLast?).getD ""
    category := (g.filterMap Txn.category).getLast?
    total_qty := (g.map Txn.qty_effective).sum
    avg_qty := (g.map Txn.qty_effective).sum / (g.length : ℚ)
    num_orders := g.length
    first_date := minEffDate g
    last_date := maxEffDate g
    window_days := window_days
    daily_usage_rate := (g.map Txn.qty_effective).sum / (window_days : ℚ) }

/-- Membership of a transaction in the half-open window `[start, end)`. -/
def inWindow (start_dt end_dt : Int) (t : Txn) : Bool :=
  decide (start_dt ≤ t.effective_date ∧ t.effective_date < end_dt)

/-- `_compute_metrics_for_period` (`par_engine.py` lines 184-208). -/
def computeMetricsForPeriod (df : List Txn) (start_dt end_dt : Int)
    (window_days : Nat) : List Metric :=
  if df = [] then []
  else
    let dff := df.filter (inWindow start_dt end_dt)
    if dff = [] then []
    else (metricKeys dff).map
      (fun k => aggGroup (dff.filter (fun t => txnKey t = k)) k window_days)

/-- Rows of `_compute_metrics_for_period` are exactly the aggregates of the
nonempty window groups. -/
lemma mem_computeMetrics (df : List Txn) (s e : Int) (wd : Nat) (m : Metric) :
    m ∈ computeMetricsForPeriod df s e wd ↔
      ∃ k, (∃ t ∈ df, inWindow s e t = true ∧ txnKey t = k) ∧
        m = aggGroup ((df.filter (inWindow s e)).filter
          (fun t => txnKey t = k)) k wd := by
  simp only [computeMetricsForPeriod]
  split_ifs with h1 h2
  · subst h1; simp
  · constructor
    · intro h; exact absurd h (by simp)
    · rintro ⟨k, ⟨t, ht, hw, hk⟩, -⟩
      have hmem : t ∈ df.filter (inWindow s e) := List.mem_filter.mpr ⟨ht, hw⟩
      rw [h2] at hmem
      exact absurd hmem (by simp)
  · rw [List.mem_map]
    constructor
    · rintro ⟨k, hk, hm⟩
      rw [mem_metricKeys] at hk
      obtain ⟨t, ht, hkey⟩ := hk
      have ht2 := List.mem_filter.mp ht
      exact ⟨k, ⟨t, ht2.1, ht2.2, hkey⟩, hm.symm⟩
    · rintro ⟨k, ⟨t, ht, hw, hk⟩, hm⟩
      refine ⟨k, ?_, hm.symm⟩
      rw [mem_metricKeys]
      exact ⟨t, List.mem_filter.mpr ⟨ht, hw⟩, hk⟩

/-- First transaction of the span-divisor test frame. -/
def txnB1 : Txn :=
  { pc_number := "357993", item_number := 23,
    item_name := "Iced Coffee Cups", category := none,
    qty_ordered := none, qty_shipped := some 4,
    order_date_raw := some "00010101", invoice_date_raw := none,
    order_date := some 1, invoice_date := none,
    effective_date := 1, qty_effective := 4 }

/-- Second transaction of the span-divisor test frame, four days later. -/
def txnB2 : Txn :=
  { pc_number := "357993", item_number := 23,
    item_name := "Iced Coffee Cups", category := none,
    qty_ordered := none, qty_shipped := some 4,
    order_date_raw := some "00010105", invoice_date_raw := none,
    order_date := some 5, invoice_date := none,
    effective_date := 5, qty_effective := 4 }

/-- A frame whose transactions span only 4 of the 10 requested window
days. -/
def dfSpan : List Txn := [txnB1, txnB2]

/-- The single metric row computed from `dfSpan` over `[0, 10)` with
`window_days = 10`. -/
def metricB : Metric :=
  { pc_number := "357993", item_number := 23,
    item_name := "Iced Coffee Cups", category := none,
    total_qty := 8, avg_qty := 4, num_orders := 2,
    first_date := 1, last_date := 5, window_days := 10,
    daily_usage_rate := 4/5 }

/-- C4: in the canonical metrics calculator, every group's
`daily_usage_rate` is the window-filtered quantity total divided by the
supplied `window_days` — a fixed divisor; on `dfSpan` this gives `8/10`,
which differs from dividing by the observed span `last_date - first_date`
(`8/4`). -/
theorem usage_rate_fixed_divisor (df : List Txn) (s e : Int) (wd : Nat) (m : Metric)
    (hm : m ∈ computeMetricsForPeriod df s e wd) :
    m.daily_usage_rate =
      ((df.filter (fun t => decide (s ≤ t.effective_date ∧ t.effective_date < e ∧
        txnKey t = (m.pc_number, m.item_number)))).map Txn.qty_effective).sum / (wd : ℚ) ∧
    (computeMetricsForPeriod dfSpan 0 10 10).map
      (fun u => (u.daily_usage_rate, u.total_qty / ((u.last_date - u.first_date : Int) : ℚ)))
      = [(4/5, 2)] ∧
    (4/5 : ℚ) ≠ 2 := by
  refine ⟨?_, by with_unfolding_all decide, by with_unfolding_all decide⟩
  rw [mem_computeMetrics] at hm
  obtain ⟨k, -, hagg⟩ := hm
  have hpc : m.pc_number = k.1 := by rw [hagg]; rfl
  have hit : m.item_number = k.2 := by rw [hagg]; rfl
  have hrate : m.daily_usage_rate =
      (((df.filter (inWindow s e)).filter
        (fun t => decide (txnKey t = k))).map Txn.qty_effective).sum / (wd : ℚ) := by
    rw [hagg]; rfl
  have hfil : df.filter (fun a => decide (txnKey a = k) && inWindow s e a) =
      df.filter (fun t => decide (s ≤ t.effective_date ∧ t.effective_date < e ∧
        txnKey t = k)) := by
    apply List.filter_congr
    intro t _
    by_cases h1 : txnKey t = k <;>
    by_cases h2 : s ≤ t.effective_date <;>
    by_cases h3 : t.effective_date < e <;>
      simp [inWindow, h1, h2, h3]
  rw [hpc, hit, Prod.mk.eta, hrate, List.filter_filter, hfil]

/-- Witness for C4 at the concrete frame `dfSpan`. -/
theorem usage_rate_fixed_divisor_witness :
    metricB ∈ computeMetricsForPeriod dfSpan 0 10 10 ∧
    metricB.daily_usage_rate =
      ((dfSpan.filter (fun t => decide ((0:Int) ≤ t.effective_date ∧ t.effective_date < 10 ∧
        txnKey t = (metricB.pc_number, metricB.item_number)))).map
          Txn.qty_effective).sum / ((10:Nat) : ℚ) :=
  ⟨by with_unfolding_all decide,
   (usage_rate_fixed_divisor dfSpan 0 10 10 metricB (by with_unfolding_all decide)).1⟩

/-! ## Par calculation (`get_par_for_next_order`, lines 211-341) -/

/-- The par formula applied to one merged row (lines 299-307):
`ceil(rate.fillna(0) * cycle_days.fillna(0) * (1 + safety_percent/100))`,
then `.fillna(0).clip(lower=0).astype(int)`. -/
def parQuantity (rate : Option ℚ) (cycle : Option Int) (safety_percent : ℚ) : Int :=
  max (Int.ceil ((rate.getD 0) * (((cycle.getD 0) : Int) : ℚ) * (1 + safety_percent / 100))) 0

/-- One row of the returned `par_df` (the selected columns of lines
318-339; the display-only window-boundary strings and the `calculated_at`
wall-clock stamp are not modelled). -/
structure ParRow where
  pc_number : String
  item_number : ℚ
  item_name : Option String
  category : Option String
  cycle_days : Option Int
  daily_usage_rate : Option ℚ
  par_quantity : Int
  ly_daily_usage_rate : Option ℚ
  ly_par_quantity : Int
  num_orders : Option Nat
  ly_num_orders : Option Nat
  total_qty : Option ℚ
  ly_total_qty : Option ℚ
  window_days : Option Nat
  safety_percent : ℚ
deriving DecidableEq

/-- One row of the returned `ctx_df`: the shared order context tagged with
a store. -/
structure CtxRow where
  pc_number : String
  context : OrderContext
deriving DecidableEq

/-- The key of a metric row, for the `(pc_number, item_number)` merge. -/
def metricKey (m : Metric) : String × ℚ := (m.pc_number, m.item_number)

/-- `merged.merge(ctx_df[["pc_number", "cycle_days"]], on="pc_number",
how="left")`: a row's `cycle_days` is the context value when its store is
in `ctx_df`, and null otherwise. -/
def cycleFor (stores : List String) (ctx : OrderContext) (p : String) : Option Int :=
  if p ∈ stores then some ctx.cycle_days else none

/-- `pd.merge(cur_metrics, ly_metrics[...], on=[...], how="outer")` for two
frames with unique keys: every left row paired with its matching right row,
followed by the unmatched right rows. -/
def outerMerge (cur ly : List Metric) :
    List ((String × ℚ) × Option Metric × Option Metric) :=
  cur.map (fun mc => (metricKey mc, some mc,
    ly.find? (fun ml => metricKey ml = metricKey mc))) ++
  (ly.filter (fun ml => !(cur.any (fun mc => metricKey mc = metricKey ml)))).map
    (fun ml => (metricKey ml, none, some ml))

/-- The three merge branches of lines 273-294: if `cur_metrics` is empty the
year-ago frame itself is used (current-only columns become null); if
`ly_metrics` is empty the current frame is used (`ly_*` columns become
null); otherwise the outer merge. -/
def mergedPairs (cur ly : List Metric) :
    List ((String × ℚ) × Option Metric × Option Metric) :=
  if cur = [] then ly.map (fun ml => (metricKey ml, none, some ml))
  else if ly = [] then cur.map (fun mc => (metricKey mc, some mc, none))
  else outerMerge cur ly

/-- Builds one output row from a merged key/current/year-ago triple.  When
`cur_metrics` was entirely empty (`curEmpty`), the merged frame is the
year-ago frame itself, which still carries `item_name`, `category` and its
own `window_days`; in the `pd.merge` branch those current-side columns are
null for year-ago-only rows. -/
def mkParRow (curEmpty : Bool) (stores : List String) (ctx : OrderContext)
    (kcl : (String × ℚ) × Option Metric × Option Metric) (sp : ℚ) : ParRow :=
  let k := kcl.1
  let c := kcl.2.1
  let l := kcl.2.2
  let cyc := cycleFor stores ctx k.1
  { pc_number := k.1
    item_number := k.2
    item_name := match c with
      | some mc => some mc.item_name
      | none => if curEmpty then l.map Metric.item_name else none
    category := match c with
      | some mc => mc.category
      | none => if curEmpty then l.bind Metric.category else none
    cycle_days := cyc
    daily_usage_rate := c.map Metric.daily_usage_rate
    par_quantity := parQuantity (c.map Metric.daily_usage_rate) cyc sp
    ly_daily_usage_rate := l.map Metric.daily_usage_rate
    ly_par_quantity := parQuantity (l.map Metric.daily_usage_rate) cyc sp
    num_orders := c.map Metric.num_orders
    ly_num_orders := l.map Metric.num_orders
    total_qty := c.map Metric.total_qty
    ly_total_qty := l.map Metric.total_qty
    window_days := match c with
      | some mc => some mc.window_days
      | none => if curEmpty then l.map Metric.window_days else none
    safety_percent := sp }

/-- `stores = sorted(set(cur pc) ∪ set(ly pc))`. -/
def storesOf (cur ly : List Metric) : List String :=
  sortByLe (fun a b => decide (a < b ∨ a = b))
    ((cur.map Metric.pc_number ++ ly.map Metric.pc_number).dedup)

/-- `get_par_for_next_order` (`par_engine.py` lines 211-341), with the
fetched-and-normalized frame passed in as `raw`. -/
def get_par_for_next_order (raw : List Txn) (pc_number : Option String)
    (today : Date) (window_days : Nat) (safety_percent : ℚ) :
    List ParRow × List CtxRow :=
  if raw = [] then ([], [])
  else
    let cw := currentWindow today window_days
    let lw := lyWindow today window_days
    let cur_all := computeMetricsForPeriod raw cw.1 cw.2 window_days
    let ly_all := computeMetricsForPeriod raw lw.1 lw.2 window_days
    if cur_all = [] ∧ ly_all = [] then ([], [])
    else
      let cur := match pc_number with
        | some p => cur_all.filter (fun m => m.pc_number = p)
        | none => cur_all
      let ly := match pc_number with
        | some p => ly_all.filter (fun m => m.pc_number = p)
        | none => ly_all
      let ctx := get_order_context (Date.toOrdinal today)
      let stores := storesOf cur ly
      let ctx_df := stores.map (fun s => CtxRow.mk s ctx)
      let merged := mergedPairs cur ly
      let par_rows := merged.map
        (fun kcl => mkParRow cur.isEmpty stores ctx kcl safety_percent)
      (par_rows, ctx_df)

/-- C8: an empty upstream table, or windows with no matching transactions,
produce empty result sets rather than an error: `get_par_for_next_order`
returns `([], [])` when `raw` is empty or when both per-window metric sets
are empty, and the metrics calculator returns `[]` whenever its window
filter leaves nothing. -/
theorem empty_inputs_empty_results (raw : List Txn) (pc : Option String)
    (today : Date) (wd : Nat) (sp : ℚ) (df : List Txn) (s e : Int) (wdm : Nat) :
    (raw = [] → get_par_for_next_order raw pc today wd sp = ([], [])) ∧
    (computeMetricsForPeriod raw (currentWindow today wd).1 (currentWindow today wd).2 wd = [] →
      computeMetricsForPeriod raw (lyWindow today wd).1 (lyWindow today wd).2 wd = [] →
      get_par_for_next_order raw pc today wd sp = ([], [])) ∧
    (df.filter (inWindow s e) = [] → computeMetricsForPeriod df s e wdm = []) := by
  refine ⟨?_, ?_, ?_⟩
  · intro h
    simp [get_par_for_next_order, h]
  · intro h1 h2
    simp [get_par_for_next_order, h1, h2]
  · intro h
    simp [computeMetricsForPeriod, h]

/-- Witness for C8: the empty table, and a table whose single 0001-01-03
transaction lies outside both windows of `today = 2024-03-01`. -/
theorem empty_inputs_empty_results_witness :
    get_par_for_next_order [] none ⟨2024, 3, 1⟩ 90 20 = ([], []) ∧
    get_par_for_next_order [txnB1] none ⟨2024, 3, 1⟩ 90 20 = ([], []) ∧
    computeMetricsForPeriod [txnB1] 2 5 5 = [] :=
  ⟨(empty_inputs_empty_results [] none ⟨2024, 3, 1⟩ 90 20 [] 0 0 0).1 rfl,
   (empty_inputs_empty_results [txnB1] none ⟨2024, 3, 1⟩ 90 20 [] 0 0 0).2.1
     (by with_unfolding_all decide) (by with_unfolding_all decide),
   (empty_inputs_empty_results [] none ⟨2024, 3, 1⟩ 90 20 [txnB1] 2 5 5).2.2
     (by decide)⟩

/-- Every output row carries the par quantities computed by `parQuantity`
from its own rate, cycle and safety columns. -/
lemma parRow_shape (raw : List Txn) (pc : Option String) (today : Date)
    (wd : Nat) (sp : ℚ) (row : ParRow)
    (hrow : row ∈ (get_par_for_next_order raw pc today wd sp).1) :
    row.par_quantity = parQuantity row.daily_usage_rate row.cycle_days sp ∧
    row.ly_par_quantity = parQuantity row.ly_daily_usage_rate row.cycle_days sp ∧
    row.safety_percent = sp := by
  rw [get_par_for_next_order] at hrow
  dsimp only at hrow
  split_ifs at hrow with h1 h2
  · simp at hrow
  · simp at hrow
  · rw [List.mem_map] at hrow
    obtain ⟨kcl, -, hk⟩ := hrow
    rw [← hk]
    exact ⟨rfl, rfl, rfl⟩

/-- C1: for every output row with a present rate and cycle, under
`rate ≥ 0`, `cycle_days ≥ 1`, `safety_percent ≥ 0`, the par quantity is
`ceil(rate * cycle_days * (1 + safety_percent/100))` clamped to `≥ 0` and
cast to integer; it is 0 whenever the rate is 0; the same formula applies
independently to `ly_par_quantity` from `ly_daily_usage_rate`; and at
rate 1, cycle 3, safety 20 the formula gives `ceil(3.6) = 4`. -/
theorem par_quantity_formula (raw : List Txn) (pc : Option String) (today : Date)
    (wd : Nat) (sp : ℚ) (row : ParRow)
    (hrow : row ∈ (get_par_for_next_order raw pc today wd sp).1)
    (r : ℚ) (c : Int) (hr : row.daily_usage_rate = some r)
    (hc : row.cycle_days = some c) (hr0 : 0 ≤ r) (hc1 : 1 ≤ c) (hsp : 0 ≤ sp) :
    (row.par_quantity = max (Int.ceil (r * (c : ℚ) * (1 + sp / 100))) 0 ∧
     0 ≤ row.par_quantity ∧
     (r = 0 → row.par_quantity = 0)) ∧
    (∀ r2 : ℚ, row.ly_daily_usage_rate = some r2 →
      row.ly_par_quantity = max (Int.ceil (r2 * (c : ℚ) * (1 + sp / 100))) 0 ∧
      (r2 = 0 → row.ly_par_quantity = 0)) ∧
    parQuantity (some 1) (some 3) 20 = 4 := by
  obtain ⟨hp, hlp, -⟩ := parRow_shape raw pc today wd sp row hrow
  refine ⟨⟨?_, ?_, ?_⟩, ?_, ?_⟩
  · rw [hp, hr, hc]; rfl
  · rw [hp]; exact le_max_right _ _
  · intro hr0'
    rw [hp, hr, hc, hr0']
    simp [parQuantity]
  · intro r2 hr2
    constructor
    · rw [hlp, hr2, hc]; rfl
    · intro hr20
      rw [hlp, hr2, hc, hr20]
      simp [parQuantity]
  · rw [parQuantity]
    norm_num
    have h4 : (Int.ceil ((18:ℚ)/5)) = 4 := by
      rw [Int.ceil_eq_iff]
      norm_num
    rw [h4]
    simp

/-- A one-unit shipment of the test item on day `eff`. -/
def mkTestTxn (eff : Date) : Txn :=
  { pc_number := "357993", item_number := 23,
    item_name := "Iced Coffee Cups", category := some "Paper",
    qty_ordered := none, qty_shipped := some 1,
    order_date_raw := none, invoice_date_raw := none,
    order_date := none, invoice_date := some (Date.toOrdinal eff),
    effective_date := Date.toOrdinal eff, qty_effective := 1 }

/-- Three one-unit shipments on the three days before 2024-03-01: a daily
usage rate of exactly 1 over a 3-day window. -/
def rawW : List Txn :=
  [mkTestTxn ⟨2024, 2, 27⟩, mkTestTxn ⟨2024, 2, 28⟩, mkTestTxn ⟨2024, 2, 29⟩]

/-- The single par row produced from `rawW` at `today = 2024-03-01`
(a Friday, so `cycle_days = 3`) with `window_days = 3`,
`safety_percent = 20`: `par_quantity = ceil(1 * 3 * 1.2) = 4`. -/
def rowW : ParRow :=
  { pc_number := "357993", item_number := 23,
    item_name := some "Iced Coffee Cups", category := some "Paper",
    cycle_days := some 3, daily_usage_rate := some 1,
    par_quantity := 4, ly_daily_usage_rate := none, ly_par_quantity := 0,
    num_orders := some 3, ly_num_orders := none,
    total_qty := some 3, ly_total_qty := none,
    window_days := some 3, safety_percent := 20 }

/-- Witness for C1 on the end-to-end scenario `rawW`. -/
theorem par_quantity_formula_witness :
    rowW ∈ (get_par_for_next_order rawW none ⟨2024, 3, 1⟩ 3 20).1 ∧
    rowW.par_quantity = max (Int.ceil ((1:ℚ) * ((3:Int) : ℚ) * (1 + 20/100))) 0 :=
  ⟨by with_unfolding_all decide,
   ((par_quantity_formula rawW none ⟨2024, 3, 1⟩ 3 20 rowW
      (by with_unfolding_all decide) 1 3 rfl rfl (by norm_num) (by norm_num)
      (by norm_num)).1).1⟩

/-- The aggregate of a group carries the group key. -/
lemma metricKey_aggGroup (g : List Txn) (k : String × ℚ) (wd : Nat) :
    metricKey (aggGroup g k wd) = k := by
  cases k; rfl

/-- A missing current-side rate contributes a par quantity of 0
(`fillna(0)` makes the product 0, and `ceil(0) = 0`). -/
lemma parQuantity_none (cyc : Option Int) (sp : ℚ) :
    parQuantity none cyc sp = 0 := by
  simp [parQuantity]

/-- The cycle length of the fixed Tuesday/Saturday cadence is always 3 or
4 days. -/
lemma cycle_days_three_or_four (d : Int) :
    (get_order_context d).cycle_days = 3 ∨ (get_order_context d).cycle_days = 4 := by
  obtain ⟨-, hwd, -⟩ := nextOrderDate_spec d
  rw [ctx_cycle_days, computeDeliveryDate_eq]
  rcases hwd with h1 | h5
  · have hdd : pyWeekday (nextOrderDate d + 2) = 3 := by unfold pyWeekday at *; omega
    rw [nextDeliveryAfter_thursday _ hdd]
    right; omega
  · have hdd : pyWeekday (nextOrderDate d + 2) = 0 := by unfold pyWeekday at *; omega
    rw [nextDeliveryAfter_monday _ hdd]
    left; omega

/-- Membership in the sorted store list. -/
lemma mem_storesOf (cur ly : List Metric) (p : String) :
    p ∈ storesOf cur ly ↔
      p ∈ cur.map Metric.pc_number ∨ p ∈ ly.map Metric.pc_number := by
  rw [storesOf, mem_sortByLe, List.mem_dedup, List.mem_append]

/-- A year-ago metric whose key has no current-side counterpart appears in
the merged frame with a null current side. -/
lemma mergedPairs_ly_only (cur ly : List Metric) (ml : Metric) (hml : ml ∈ ly)
    (hno : ∀ mc ∈ cur, metricKey mc ≠ metricKey ml) :
    (metricKey ml, none, some ml) ∈ mergedPairs cur ly := by
  rw [mergedPairs]
  split_ifs with h1 h2
  · exact List.mem_map.mpr ⟨ml, hml, rfl⟩
  · subst h2; simp at hml
  · rw [outerMerge, List.mem_append]
    right
    refine List.mem_map.mpr ⟨ml, ?_, rfl⟩
    rw [List.mem_filter]
    refine ⟨hml, ?_⟩
    simp only [Bool.not_eq_eq_eq_not, Bool.not_true, List.any_eq_false]
    intro mc hmc
    simpa using hno mc hmc

/-- C6 (amended): a `(store, item)` pair with transactions only in the
year-ago window still yields a result row, with `par_quantity = 0`, a null
current rate, and `ly_par_quantity` computed from `ly_daily_usage_rate`
(positive whenever that rate is positive).  The missing current side's
numeric fields are null; its non-numeric fields (`item_name`, `category`)
and `window_days` are null only when some other pair has current
transactions (the `pd.merge` branch) — when the current period is entirely
empty, the result is the year-ago frame itself: `item_name` and
`window_days` are carried over non-null, and `category` is taken from the
year-ago metric (the group's last non-null category, itself null when
every category in the group is null). -/
theorem outer_join_keeps_ly_only_items
    (raw : List Txn) (today : Date) (wd : Nat) (sp : ℚ) (p : String) (i : ℚ)
    (hly : ∃ t ∈ raw, inWindow (lyWindow today wd).1 (lyWindow today wd).2 t = true ∧
      txnKey t = (p, i))
    (hcur : ∀ t ∈ raw, txnKey t = (p, i) →
      inWindow (currentWindow today wd).1 (currentWindow today wd).2 t = false)
    (hsp : 0 ≤ sp) :
    ∃ row ∈ (get_par_for_next_order raw none today wd sp).1,
      row.pc_number = p ∧ row.item_number = i ∧
      row.daily_usage_rate = none ∧ row.total_qty = none ∧ row.num_orders = none ∧
      row.par_quantity = 0 ∧
      (∃ r : ℚ, row.ly_daily_usage_rate = some r ∧
        (0 < r → 0 < row.ly_par_quantity)) ∧
      (computeMetricsForPeriod raw (currentWindow today wd).1
          (currentWindow today wd).2 wd ≠ [] →
        row.item_name = none ∧ row.category = none ∧ row.window_days = none) ∧
      (computeMetricsForPeriod raw (currentWindow today wd).1
          (currentWindow today wd).2 wd = [] →
        ∃ ml ∈ computeMetricsForPeriod raw (lyWindow today wd).1
            (lyWindow today wd).2 wd,
          metricKey ml = (p, i) ∧
          row.item_name = some ml.item_name ∧
          row.window_days = some ml.window_days ∧
          row.category = ml.category ∧
          row.item_name ≠ none ∧ row.window_days ≠ none) := by
  obtain ⟨t0, ht0raw, ht0win, ht0key⟩ := hly
  have hrawne : raw ≠ [] := List.ne_nil_of_mem ht0raw
  have hkeycur : ∀ mc ∈ computeMetricsForPeriod raw (currentWindow today wd).1
      (currentWindow today wd).2 wd, metricKey mc ≠ (p, i) := by
    intro mc hmc heq
    rw [mem_computeMetrics] at hmc
    obtain ⟨k, ⟨t, htraw, htwin, htkey⟩, hagg⟩ := hmc
    have hk : metricKey mc = k := by rw [hagg, metricKey_aggGroup]
    rw [hk] at heq
    subst heq
    have hfalse := hcur t htraw htkey
    rw [hfalse] at htwin
    exact Bool.false_ne_true htwin
  have hmly : aggGroup ((raw.filter (inWindow (lyWindow today wd).1
        (lyWindow today wd).2)).filter (fun t => txnKey t = (p, i))) (p, i) wd ∈
      computeMetricsForPeriod raw (lyWindow today wd).1 (lyWindow today wd).2 wd := by
    rw [mem_computeMetrics]
    exact ⟨(p, i), ⟨t0, ht0raw, ht0win, ht0key⟩, rfl⟩
  have hlyne : computeMetricsForPeriod raw (lyWindow today wd).1
      (lyWindow today wd).2 wd ≠ [] := List.ne_nil_of_mem hmly
  rw [get_par_for_next_order]
  dsimp only
  split_ifs with h1 h2
  · exact absurd h1 hrawne
  · exact absurd h2.2 hlyne
  · have hpair := mergedPairs_ly_only
      (computeMetricsForPeriod raw (currentWindow today wd).1 (currentWindow today wd).2 wd)
      (computeMetricsForPeriod raw (lyWindow today wd).1 (lyWindow today wd).2 wd)
      _ hmly (fun mc hmc => by rw [metricKey_aggGroup]; exact hkeycur mc hmc)
    rw [metricKey_aggGroup] at hpair
    refine ⟨_, List.mem_map.mpr ⟨_, hpair, rfl⟩, rfl, rfl, rfl, rfl, rfl,
      parQuantity_none _ sp, ⟨_, rfl, ?_⟩, ?_, ?_⟩
    · intro hr
      have hmemstores : p ∈ storesOf
          (computeMetricsForPeriod raw (currentWindow today wd).1 (currentWindow today wd).2 wd)
          (computeMetricsForPeriod raw (lyWindow today wd).1 (lyWindow today wd).2 wd) := by
        rw [mem_storesOf]
        right
        exact List.mem_map.mpr ⟨_, hmly, rfl⟩
      have hcyc : cycleFor (storesOf
          (computeMetricsForPeriod raw (currentWindow today wd).1 (currentWindow today wd).2 wd)
          (computeMetricsForPeriod raw (lyWindow today wd).1 (lyWindow today wd).2 wd))
          (get_order_context (Date.toOrdinal today)) p =
          some (get_order_context (Date.toOrdinal today)).cycle_days := by
        rw [cycleFor, if_pos hmemstores]
      show (0:Int) < parQuantity _ _ sp
      rw [hcyc, parQuantity]
      simp only [Option.getD_some]
      have hcpos : (0:ℚ) < ((get_order_context (Date.toOrdinal today)).cycle_days : ℚ) := by
        rcases cycle_days_three_or_four (Date.toOrdinal today) with h | h <;>
          rw [h] <;> norm_num
      have hq : (0:ℚ) ≤ sp / 100 := by positivity
      have hmult : (0:ℚ) < 1 + sp / 100 := by linarith
      exact lt_of_lt_of_le (Int.ceil_pos.mpr (mul_pos (mul_pos hr hcpos) hmult))
        (le_max_left _ _)
    · intro hne
      have hflag : (computeMetricsForPeriod raw (currentWindow today wd).1
          (currentWindow today wd).2 wd).isEmpty = false := by
        cases hc : computeMetricsForPeriod raw (currentWindow today wd).1
            (currentWindow today wd).2 wd with
        | nil => exact absurd hc hne
        | cons a as => rfl
      refine ⟨?_, ?_, ?_⟩ <;> simp [mkParRow, hflag]
    · intro he
      refine ⟨_, hmly, metricKey_aggGroup _ _ _, ?_, ?_, ?_, ?_, ?_⟩ <;>
        simp [mkParRow, he]

/-- A table whose only transaction (for the test pair) lies in the year-ago
window of `today = 2024-03-01`. -/
def rawLy : List Txn := [mkTestTxn ⟨2023, 2, 27⟩]

/-- Counterexample for C6 as stated: on `rawLy` the current metrics are
entirely empty, so the merged result is the year-ago frame itself, and the
year-ago-only row keeps a NON-null `item_name` — the claim's "non-numeric
fields are left null" fails for this input. -/
theorem outer_join_nonnumeric_null_refuted :
    ((get_par_for_next_order rawLy none ⟨2024, 3, 1⟩ 3 20).1.map
      (fun row => (row.pc_number, row.item_number, row.item_name))) =
      [("357993", 23, some "Iced Coffee Cups")] ∧
    some "Iced Coffee Cups" ≠ (none : Option String) :=
  ⟨by with_unfolding_all decide, by simp⟩

/-- Witness for C6 (amended) on `rawLy`. -/
theorem outer_join_keeps_ly_only_items_witness :
    ∃ row ∈ (get_par_for_next_order rawLy none ⟨2024, 3, 1⟩ 3 20).1,
      row.pc_number = "357993" ∧ row.item_number = 23 ∧
      row.daily_usage_rate = none ∧ row.total_qty = none ∧ row.num_orders = none ∧
      row.par_quantity = 0 ∧
      (∃ r : ℚ, row.ly_daily_usage_rate = some r ∧
        (0 < r → 0 < row.ly_par_quantity)) ∧
      (computeMetricsForPeriod rawLy (currentWindow ⟨2024, 3, 1⟩ 3).1
          (currentWindow ⟨2024, 3, 1⟩ 3).2 3 ≠ [] →
        row.item_name = none ∧ row.category = none ∧ row.window_days = none) ∧
      (computeMetricsForPeriod rawLy (currentWindow ⟨2024, 3, 1⟩ 3).1
          (currentWindow ⟨2024, 3, 1⟩ 3).2 3 = [] →
        ∃ ml ∈ computeMetricsForPeriod rawLy (lyWindow ⟨2024, 3, 1⟩ 3).1
            (lyWindow ⟨2024, 3, 1⟩ 3).2 3,
          metricKey ml = ("357993", 23) ∧
          row.item_name = some ml.item_name ∧
          row.window_days = some ml.window_days ∧
          row.category = ml.category ∧
          row.item_name ≠ none ∧ row.window_days ≠ none) :=
  outer_join_keeps_ly_only_items rawLy ⟨2024, 3, 1⟩ 3 20 "357993" 23
    (by with_unfolding_all decide) (by with_unfolding_all decide) (by norm_num)
